import Mathlib

/-!
Verification of the CodeRev (CodeReviewPro) scan-comparison design against its
specification.  The data model follows the TypeScript declarations in
`src/extension/src/extension.ts`; the client methods `checkHealth`,
`getLatestScan` and `DiagnosticProvider.createDiagnostic` are embedded from
`src/unnamed/part_001`.  The server-side comparator behind the
`/api/scan/compare` endpoint and the identity-hash construction are not part of
the extension sources, so they are modelled from the specification (§3, §4.1,
§7) as marked on each definition.
-/

namespace CodeRev

/-- Issue categories, from the `IssueCategory` union type in `extension.ts`. -/
inductive IssueCategory where
  | bug
  | security
  | performance
  | maintainability
  | architecture
  deriving DecidableEq, Repr

/-- Issue severities, from the `IssueSeverity` union type in `extension.ts`. -/
inductive IssueSeverity where
  | error
  | warning
  | info
  deriving DecidableEq, Repr

/-- One finding, from the `Issue` interface in `extension.ts`.  Line numbers are
TypeScript numbers and may in principle be zero or negative, so they are
embedded as `Int`. -/
structure Issue where
  id : String
  category : IssueCategory
  severity : IssueSeverity
  filePath : String
  lineStart : Int
  lineEnd : Int
  description : String
  recommendation : String
  codeSnippet : Option String
  issueHash : String
  deriving DecidableEq, Repr

/-- Aggregate counts, from the `ScanSummary` interface in `extension.ts`. -/
structure ScanSummary where
  totalIssues : Nat
  newIssues : Nat
  fixedIssues : Nat
  remainingIssues : Nat
  issuesByCategory : IssueCategory → Nat
  issuesBySeverity : IssueSeverity → Nat

/-- One immutable scan snapshot, from the `ScanResult` interface in
`extension.ts`. -/
structure ScanResult where
  scanId : String
  scanDate : String
  repositoryPath : String
  detectedLanguages : List String
  detectedFrameworks : List String
  totalFiles : Nat
  issues : List Issue
  summary : ScanSummary

/-- Result of comparing two scans, from the `ComparisonResult` interface in
`extension.ts` (lines 367–373). -/
structure ComparisonResult where
  currentScan : ScanResult
  previousScan : Option ScanResult
  newIssues : List Issue
  fixedIssues : List Issue
  remainingIssues : List Issue

/-- The multiset of identity hashes carried by a scan's issues. -/
def scanHashes (s : ScanResult) : List String :=
  s.issues.map (fun i => i.issueHash)

/-- Modelled from the spec: the comparator behind the `/api/scan/compare`
endpoint runs on the backend server, which is not among the extension sources;
§4.1 specifies it.  If `previous` is absent every current issue is new and the
other buckets are empty (bootstrap).  Otherwise build the set of identity
hashes of each scan; a current issue whose hash occurs among the previous
hashes is `remaining`, otherwise `new`; a previous issue whose hash does not
occur among the current hashes is `fixed`.  Hash-set membership decides the
bucket; the literal records are kept, never deduplicated. -/
def compareScans (current : ScanResult) (previous : Option ScanResult) :
    ComparisonResult :=
  match previous with
  | none =>
      { currentScan := current
        previousScan := none
        newIssues := current.issues
        fixedIssues := []
        remainingIssues := [] }
  | some prev =>
      let prevHashes := scanHashes prev
      let currHashes := scanHashes current
      { currentScan := current
        previousScan := some prev
        newIssues :=
          current.issues.filter (fun i => !(decide (i.issueHash ∈ prevHashes)))
        fixedIssues :=
          prev.issues.filter (fun i => !(decide (i.issueHash ∈ currHashes)))
        remainingIssues :=
          current.issues.filter (fun i => decide (i.issueHash ∈ prevHashes)) }

/-- An issue appears (as the same logical issue, §3: identical fingerprints are
the same logical issue regardless of which scan produced them) in a list when
some member carries its identity hash. -/
def appearsByHash (i : Issue) (l : List Issue) : Prop :=
  ∃ j ∈ l, j.issueHash = i.issueHash

instance (i : Issue) (l : List Issue) : Decidable (appearsByHash i l) := by
  unfold appearsByHash
  infer_instance

/-- Membership in the three output lists, unfolded. -/
theorem mem_newIssues_iff (A B : ScanResult) (i : Issue) :
    i ∈ (compareScans B (some A)).newIssues ↔
      i ∈ B.issues ∧ i.issueHash ∉ scanHashes A := by
  simp [compareScans, List.mem_filter]

theorem mem_remainingIssues_iff (A B : ScanResult) (i : Issue) :
    i ∈ (compareScans B (some A)).remainingIssues ↔
      i ∈ B.issues ∧ i.issueHash ∈ scanHashes A := by
  simp [compareScans, List.mem_filter]

theorem mem_fixedIssues_iff (A B : ScanResult) (i : Issue) :
    i ∈ (compareScans B (some A)).fixedIssues ↔
      i ∈ A.issues ∧ i.issueHash ∉ scanHashes B := by
  simp [compareScans, List.mem_filter]

theorem mem_scanHashes (s : ScanResult) (i : Issue) (h : i ∈ s.issues) :
    i.issueHash ∈ scanHashes s :=
  List.mem_map_of_mem (fun j => j.issueHash) h

theorem exists_of_mem_scanHashes {x : String} {s : ScanResult}
    (h : x ∈ scanHashes s) : ∃ j ∈ s.issues, j.issueHash = x :=
  List.mem_map.mp h

/-- A default (all-zero) summary, used to build concrete scans. -/
def emptySummary : ScanSummary :=
  { totalIssues := 0, newIssues := 0, fixedIssues := 0, remainingIssues := 0
    issuesByCategory := fun _ => 0, issuesBySeverity := fun _ => 0 }

/-- Build a concrete issue for the test scenarios of spec §8. -/
def mkIssue (id filePath : String) (category : IssueCategory)
    (description hash : String) : Issue :=
  { id := id, category := category, severity := IssueSeverity.warning
    filePath := filePath, lineStart := 1, lineEnd := 1
    description := description, recommendation := ""
    codeSnippet := none, issueHash := hash }

/-- Build a concrete scan for the test scenarios of spec §8. -/
def mkScan (scanId : String) (issues : List Issue) : ScanResult :=
  { scanId := scanId, scanDate := "2024-01-01", repositoryPath := "repo"
    detectedLanguages := [], detectedFrameworks := [], totalFiles := 0
    issues := issues, summary := emptySummary }

/-- Previous scan of the concrete scenario (spec §8 property 5). -/
def iA1 : Issue := mkIssue "a1" "a.py" IssueCategory.security "sql injection" "h1"

def iA2 : Issue := mkIssue "a2" "b.py" IssueCategory.bug "null deref" "h2"

def iB1 : Issue := mkIssue "b1" "a.py" IssueCategory.security "sql injection" "h1"

def iB2 : Issue := mkIssue "b2" "c.py" IssueCategory.performance "slow loop" "h3"

def scanA : ScanResult := mkScan "scan-A" [iA1, iA2]

def scanB : ScanResult := mkScan "scan-B" [iB1, iB2]

/-- C1: for every pair of scans (previous `A`, current `B`) the comparison
partitions both inputs: every issue of `B` lies in exactly one of
`newIssues`/`remainingIssues`; every issue of `A` lies in `fixedIssues` or
appears (as the same logical issue, by identity hash, §3) in
`remainingIssues`, and in exactly one of the two; and no issue record lies in
more than one of the three output lists. -/
theorem compareScans_partition (A B : ScanResult) :
    (∀ i ∈ B.issues,
        (i ∈ (compareScans B (some A)).newIssues ∧
         i ∉ (compareScans B (some A)).remainingIssues) ∨
        (i ∈ (compareScans B (some A)).remainingIssues ∧
         i ∉ (compareScans B (some A)).newIssues)) ∧
    (∀ i ∈ A.issues,
        (i ∈ (compareScans B (some A)).fixedIssues ∧
         ¬ appearsByHash i (compareScans B (some A)).remainingIssues) ∨
        (appearsByHash i (compareScans B (some A)).remainingIssues ∧
         i ∉ (compareScans B (some A)).fixedIssues)) ∧
    (∀ i, ¬ (i ∈ (compareScans B (some A)).newIssues ∧
             i ∈ (compareScans B (some A)).remainingIssues)) ∧
    (∀ i, ¬ (i ∈ (compareScans B (some A)).newIssues ∧
             i ∈ (compareScans B (some A)).fixedIssues)) ∧
    (∀ i, ¬ (i ∈ (compareScans B (some A)).fixedIssues ∧
             i ∈ (compareScans B (some A)).remainingIssues)) := by
  refine ⟨?_, ?_, ?_, ?_, ?_⟩
  · intro i hi
    by_cases hc : i.issueHash ∈ scanHashes A
    · exact Or.inr ⟨(mem_remainingIssues_iff A B i).mpr ⟨hi, hc⟩,
        fun hn => ((mem_newIssues_iff A B i).mp hn).2 hc⟩
    · exact Or.inl ⟨(mem_newIssues_iff A B i).mpr ⟨hi, hc⟩,
        fun hr => hc ((mem_remainingIssues_iff A B i).mp hr).2⟩
  · intro i hi
    by_cases hc : i.issueHash ∈ scanHashes B
    · refine Or.inr ⟨?_, fun hf => ((mem_fixedIssues_iff A B i).mp hf).2 hc⟩
      obtain ⟨j, hjB, hj⟩ := exists_of_mem_scanHashes hc
      exact ⟨j, (mem_remainingIssues_iff A B j).mpr
        ⟨hjB, by rw [hj]; exact mem_scanHashes A i hi⟩, hj⟩
    · refine Or.inl ⟨(mem_fixedIssues_iff A B i).mpr ⟨hi, hc⟩, ?_⟩
      rintro ⟨j, hjR, hj⟩
      have hjB := ((mem_remainingIssues_iff A B j).mp hjR).1
      exact hc (hj ▸ mem_scanHashes B j hjB)
  · rintro i ⟨hn, hr⟩
    exact ((mem_newIssues_iff A B i).mp hn).2
      ((mem_remainingIssues_iff A B i).mp hr).2
  · rintro i ⟨hn, hf⟩
    exact ((mem_newIssues_iff A B i).mp hn).2
      (mem_scanHashes A i ((mem_fixedIssues_iff A B i).mp hf).1)
  · rintro i ⟨hf, hr⟩
    exact ((mem_fixedIssues_iff A B i).mp hf).2
      (mem_scanHashes B i ((mem_remainingIssues_iff A B i).mp hr).1)

/-- Witness for C1: on the concrete scans of spec §8, the partition places the
fresh issue `iB2` in `newIssues` and not in `remainingIssues`. -/
theorem compareScans_partition_witness :
    iB2 ∈ (compareScans scanB (some scanA)).newIssues ∧
    iB2 ∉ (compareScans scanB (some scanA)).remainingIssues := by
  have h := (compareScans_partition scanA scanB).1 iB2 (by decide)
  rcases h with h | h
  · exact h
  · exact absurd h.1 (by decide)

/-- C2: with a previous scan present the comparator classifies by hash-set
membership: a current issue is `remaining` exactly when its hash occurs among
the previous scan's hashes, `new` exactly when it does not, and a previous
issue is `fixed` exactly when its hash does not occur among the current scan's
hashes. -/
theorem compareScans_classification (A B : ScanResult) (i : Issue) :
    (i ∈ (compareScans B (some A)).remainingIssues ↔
      i ∈ B.issues ∧ i.issueHash ∈ scanHashes A) ∧
    (i ∈ (compareScans B (some A)).newIssues ↔
      i ∈ B.issues ∧ i.issueHash ∉ scanHashes A) ∧
    (i ∈ (compareScans B (some A)).fixedIssues ↔
      i ∈ A.issues ∧ i.issueHash ∉ scanHashes B) :=
  ⟨mem_remainingIssues_iff A B i, mem_newIssues_iff A B i,
    mem_fixedIssues_iff A B i⟩

/-- Witness for C2: on the concrete scans of spec §8, the shared-hash issue
`iB1` is classified `remaining`. -/
theorem compareScans_classification_witness :
    iB1 ∈ (compareScans scanB (some scanA)).remainingIssues :=
  ((compareScans_classification scanA scanB iB1).1).mpr ⟨by decide, by decide⟩

/-- C3: comparing a current scan against an absent previous scan yields all
current issues as `newIssues` (hence of the same length) and empty
`fixedIssues` and `remainingIssues`. -/
theorem compareScans_bootstrap (B : ScanResult) :
    (compareScans B none).newIssues = B.issues ∧
    (compareScans B none).newIssues.length = B.issues.length ∧
    (compareScans B none).fixedIssues = [] ∧
    (compareScans B none).remainingIssues = [] :=
  ⟨rfl, rfl, rfl, rfl⟩

/-- Modelled from the spec: the identity-hash construction belongs to an
excluded analyzer component (§9); §3 specifies a normalized combination of
file path, category and a snippet/description signature, independent of line
numbers.  The normalization follows §9's suggestion: trim whitespace,
lowercase, truncate to a fixed number of characters. -/
def normalizeSignature (s : String) : String :=
  (s.trim.toLower).take 64

/-- Canonical string key of a category, used inside the identity hash. -/
def categoryKey : IssueCategory → String
  | IssueCategory.bug => "bug"
  | IssueCategory.security => "security"
  | IssueCategory.performance => "performance"
  | IssueCategory.maintainability => "maintainability"
  | IssueCategory.architecture => "architecture"

/-- Modelled from the spec: the identity hash is computed from the normalized
file path, the category and the description signature — not from line
numbers (§3). -/
def identityHash (filePath : String) (category : IssueCategory)
    (description : String) : String :=
  filePath.trim ++ "|" ++ categoryKey category ++ "|" ++
    normalizeSignature description

/-- The identity hash an issue's descriptive fields yield. -/
def issueIdentity (i : Issue) : String :=
  identityHash i.filePath i.category i.description

/-- Stamp an issue with the identity hash computed from its own fields. -/
def withIdentityHash (i : Issue) : Issue :=
  { i with issueHash := issueIdentity i }

/-- C4: two issues with identical file path, category and description-derived
signature but (possibly) different line numbers get the same identity hash,
and when their stored hashes are the ones their fields yield, the comparison
of the two scans containing them classifies the current copy as `remaining`
— not as `new` — and the previous copy not as `fixed`. -/
theorem identityHash_line_stable (i1 i2 : Issue) (A B : ScanResult)
    (hf : i1.filePath = i2.filePath) (hcat : i1.category = i2.category)
    (hd : i1.description = i2.description)
    (h1 : i1.issueHash = issueIdentity i1)
    (h2 : i2.issueHash = issueIdentity i2)
    (hA : i1 ∈ A.issues) (hB : i2 ∈ B.issues) :
    issueIdentity i1 = issueIdentity i2 ∧
    i1.issueHash = i2.issueHash ∧
    i2 ∈ (compareScans B (some A)).remainingIssues ∧
    i2 ∉ (compareScans B (some A)).newIssues ∧
    i1 ∉ (compareScans B (some A)).fixedIssues := by
  have hid : issueIdentity i1 = issueIdentity i2 := by
    unfold issueIdentity identityHash
    rw [hf, hcat, hd]
  have hh : i1.issueHash = i2.issueHash := by rw [h1, h2, hid]
  have hmemA : i2.issueHash ∈ scanHashes A := by
    rw [← hh]; exact mem_scanHashes A i1 hA
  have hmemB : i1.issueHash ∈ scanHashes B := by
    rw [hh]; exact mem_scanHashes B i2 hB
  refine ⟨hid, hh, (mem_remainingIssues_iff A B i2).mpr ⟨hB, hmemA⟩, ?_, ?_⟩
  · intro hn
    exact ((mem_newIssues_iff A B i2).mp hn).2 hmemA
  · intro hfx
    exact ((mem_fixedIssues_iff A B i1).mp hfx).2 hmemB

/-- Concrete line-drift pair: same finding, lines shifted by three. -/
def iD1 : Issue := withIdentityHash
  { id := "d1", category := IssueCategory.security
    severity := IssueSeverity.error, filePath := "a.py"
    lineStart := 10, lineEnd := 12
    description := "Hardcoded password", recommendation := ""
    codeSnippet := none, issueHash := "" }

def iD2 : Issue := withIdentityHash
  { id := "d2", category := IssueCategory.security
    severity := IssueSeverity.error, filePath := "a.py"
    lineStart := 13, lineEnd := 15
    description := "Hardcoded password", recommendation := ""
    codeSnippet := none, issueHash := "" }

def scanD1 : ScanResult := mkScan "scan-D1" [iD1]

def scanD2 : ScanResult := mkScan "scan-D2" [iD2]

/-- Witness for C4: the concrete drifted pair is classified `remaining`. -/
theorem identityHash_line_stable_witness :
    iD2 ∈ (compareScans scanD2 (some scanD1)).remainingIssues :=
  (identityHash_line_stable iD1 iD2 scanD1 scanD2 rfl rfl rfl rfl rfl
    (List.mem_cons_self _ _) (List.mem_cons_self _ _)).2.2.1

/-- Counterexample for C5 as stated: a previous-scan record whose hash also
occurs in the current scan is represented in `remainingIssues` only by the
current scan's record; the literal previous record `iA1` appears in none of
the three output lists. -/
theorem compareScans_preservation_cex :
    iA1 ∈ scanA.issues ∧
    iA1 ∉ (compareScans scanB (some scanA)).newIssues ∧
    iA1 ∉ (compareScans scanB (some scanA)).fixedIssues ∧
    iA1 ∉ (compareScans scanB (some scanA)).remainingIssues := by
  decide

/-- C5 (amended): hash-set membership decides the bucket of every record and
no record is dropped by deduplication within its bucket: `newIssues ++
remainingIssues` is a permutation of the current scan's issues, and each
record's multiplicity is preserved — a current record keeps its full count in
`remainingIssues` (hash shared with the previous scan) or in `newIssues`
(hash not shared), and a previous record keeps its full count in
`fixedIssues` exactly when its hash is absent from the current scan;
previous records whose hash remains are represented in `remainingIssues`
only by the current scan's records. -/
theorem compareScans_preservation (A B : ScanResult) :
    ((compareScans B (some A)).newIssues ++
      (compareScans B (some A)).remainingIssues).Perm B.issues ∧
    (∀ x : Issue, (compareScans B (some A)).remainingIssues.count x =
      if x.issueHash ∈ scanHashes A then B.issues.count x else 0) ∧
    (∀ x : Issue, (compareScans B (some A)).newIssues.count x =
      if x.issueHash ∈ scanHashes A then 0 else B.issues.count x) ∧
    (∀ x : Issue, (compareScans B (some A)).fixedIssues.count x =
      if x.issueHash ∈ scanHashes B then 0 else A.issues.count x) := by
  refine ⟨?_, ?_, ?_, ?_⟩
  · have h := List.filter_append_perm
      (fun i => decide (i.issueHash ∈ scanHashes A)) B.issues
    exact List.Perm.trans List.perm_append_comm h
  · intro x
    by_cases hx : x.issueHash ∈ scanHashes A
    · rw [if_pos hx]
      exact List.count_filter (by simpa using hx)
    · rw [if_neg hx]
      refine List.count_eq_zero.mpr fun hmem => ?_
      exact hx ((mem_remainingIssues_iff A B x).mp hmem).2
  · intro x
    by_cases hx : x.issueHash ∈ scanHashes A
    · rw [if_pos hx]
      refine List.count_eq_zero.mpr fun hmem => ?_
      exact ((mem_newIssues_iff A B x).mp hmem).2 hx
    · rw [if_neg hx]
      exact List.count_filter (by simpa using hx)
  · intro x
    by_cases hx : x.issueHash ∈ scanHashes B
    · rw [if_pos hx]
      refine List.count_eq_zero.mpr fun hmem => ?_
      exact ((mem_fixedIssues_iff A B x).mp hmem).2 hx
    · rw [if_neg hx]
      exact List.count_filter (by simpa using hx)

/-- Witness for C5 (amended): on the concrete scans, the duplicate-free counts
come out as the partition predicts. -/
theorem compareScans_preservation_witness :
    (compareScans scanB (some scanA)).remainingIssues.count iB1 =
      scanB.issues.count iB1 := by
  have h := (compareScans_preservation scanA scanB).2.1 iB1
  rwa [if_pos (by decide)] at h

/-- The hashes represented in `remainingIssues` are exactly those occurring in
both scans. -/
theorem mem_remaining_hashes_iff (A B : ScanResult) (x : String) :
    x ∈ (compareScans B (some A)).remainingIssues.map (fun i => i.issueHash) ↔
      x ∈ scanHashes B ∧ x ∈ scanHashes A := by
  constructor
  · intro hx
    obtain ⟨i, hiR, rfl⟩ := List.mem_map.mp hx
    obtain ⟨hiB, hiA⟩ := (mem_remainingIssues_iff A B i).mp hiR
    exact ⟨mem_scanHashes B i hiB, hiA⟩
  · rintro ⟨hxB, hxA⟩
    obtain ⟨j, hjB, rfl⟩ := exists_of_mem_scanHashes hxB
    exact List.mem_map.mpr
      ⟨j, (mem_remainingIssues_iff A B j).mpr ⟨hjB, hxA⟩, rfl⟩

/-- Counterexample for C6 as stated: for the concrete scans the two
`remainingIssues` lists are not identical — each direction holds its own
current scan's record for the shared hash. -/
theorem compareScans_symmetry_cex :
    (compareScans scanB (some scanA)).remainingIssues ≠
      (compareScans scanA (some scanB)).remainingIssues := by
  decide

/-- C6 (amended): comparing in the two directions is symmetric record-for-record
on `new`/`fixed` — `newIssues` of one direction equals `fixedIssues` of the
other, and vice versa — while the two `remainingIssues` lists agree as sets of
identity hashes (the literal records belong to the respective current scan). -/
theorem compareScans_symmetry (A B : ScanResult) :
    (compareScans B (some A)).newIssues =
      (compareScans A (some B)).fixedIssues ∧
    (compareScans B (some A)).fixedIssues =
      (compareScans A (some B)).newIssues ∧
    (∀ x : String,
      x ∈ (compareScans B (some A)).remainingIssues.map
            (fun i => i.issueHash) ↔
      x ∈ (compareScans A (some B)).remainingIssues.map
            (fun i => i.issueHash)) := by
  refine ⟨rfl, rfl, fun x => ?_⟩
  rw [mem_remaining_hashes_iff, mem_remaining_hashes_iff]
  exact and_comm

/-- Witness for C6 (amended): the shared hash `h1` is reported remaining in
both directions. -/
theorem compareScans_symmetry_witness :
    "h1" ∈ (compareScans scanA (some scanB)).remainingIssues.map
      (fun i => i.issueHash) := by
  have h := ((compareScans_symmetry scanA scanB).2.2 "h1").mp
  exact h (by decide)

/-- C7: the comparator is a deterministic pure function of its two inputs — a
second invocation on the same pair yields the identical result, and the three
output lists depend on nothing beyond the issue lists of the two inputs. -/
theorem compareScans_pure (c₁ c₂ : ScanResult) (p₁ p₂ : Option ScanResult)
    (hc : c₁.issues = c₂.issues)
    (hp : p₁.map ScanResult.issues = p₂.map ScanResult.issues) :
    compareScans c₁ p₁ = compareScans c₁ p₁ ∧
    (compareScans c₁ p₁).newIssues = (compareScans c₂ p₂).newIssues ∧
    (compareScans c₁ p₁).fixedIssues = (compareScans c₂ p₂).fixedIssues ∧
    (compareScans c₁ p₁).remainingIssues =
      (compareScans c₂ p₂).remainingIssues := by
  cases p₁ with
  | none =>
    cases p₂ with
    | none => exact ⟨rfl, by simp [compareScans, hc], rfl, rfl⟩
    | some q => simp at hp
  | some p =>
    cases p₂ with
    | none => simp at hp
    | some q =>
      have hq : p.issues = q.issues := by simpa using hp
      exact ⟨rfl, by simp [compareScans, scanHashes, hc, hq],
        by simp [compareScans, scanHashes, hc, hq],
        by simp [compareScans, scanHashes, hc, hq]⟩

/-- A retry of the current scan: same issues, different scan id. -/
def scanBretry : ScanResult := mkScan "scan-B-retry" [iB1, iB2]

/-- Witness for C7: the retried comparison reports the same `newIssues`. -/
theorem compareScans_pure_witness :
    (compareScans scanB (some scanA)).newIssues =
      (compareScans scanBretry (some scanA)).newIssues :=
  (compareScans_pure scanB scanBretry (some scanA) (some scanA)
    rfl rfl).2.1

/-- A raw, not yet validated issue as it arrives over the wire: the identity
hash may be missing. -/
structure RawIssue where
  id : String
  category : IssueCategory
  severity : IssueSeverity
  filePath : String
  lineStart : Int
  lineEnd : Int
  description : String
  recommendation : String
  codeSnippet : Option String
  issueHash : Option String

/-- A raw, not yet validated scan as it arrives over the wire: the issues list
may be missing. -/
structure RawScanResult where
  scanId : String
  scanDate : String
  repositoryPath : String
  detectedLanguages : List String
  detectedFrameworks : List String
  totalFiles : Nat
  issues : Option (List RawIssue)
  summary : ScanSummary

/-- Modelled from the spec: §7 — an `Issue` missing its identity hash is a
data-validation failure. -/
def validateIssue (r : RawIssue) : Except String Issue :=
  match r.issueHash with
  | none => Except.error "issue missing identityHash"
  | some h =>
      Except.ok
        { id := r.id, category := r.category, severity := r.severity
          filePath := r.filePath, lineStart := r.lineStart
          lineEnd := r.lineEnd, description := r.description
          recommendation := r.recommendation, codeSnippet := r.codeSnippet
          issueHash := h }

/-- Validate a list of raw issues, failing on the first malformed one: no
partial recovery, no silent skipping (§7). -/
def validateIssues : List RawIssue → Except String (List Issue)
  | [] => Except.ok []
  | r :: rs =>
    match validateIssue r with
    | Except.error e => Except.error e
    | Except.ok i =>
      match validateIssues rs with
      | Except.error e => Except.error e
      | Except.ok rest => Except.ok (i :: rest)

/-- Modelled from the spec: §7 — a `ScanResult` missing its issues list is a
data-validation failure. -/
def validateScan (r : RawScanResult) : Except String ScanResult :=
  match r.issues with
  | none => Except.error "scan missing issues"
  | some rs =>
    match validateIssues rs with
    | Except.error e => Except.error e
    | Except.ok issues =>
      Except.ok
        { scanId := r.scanId, scanDate := r.scanDate
          repositoryPath := r.repositoryPath
          detectedLanguages := r.detectedLanguages
          detectedFrameworks := r.detectedFrameworks
          totalFiles := r.totalFiles, issues := issues
          summary := r.summary }

/-- Modelled from the spec: §4.1 and §7 — the comparison path validates its
inputs and then runs the pure comparator; a malformed input surfaces as an
error to the caller, while an absent previous scan is the bootstrap case. -/
def compareScansChecked (current : RawScanResult)
    (previous : Option RawScanResult) : Except String ComparisonResult :=
  match validateScan current with
  | Except.error e => Except.error e
  | Except.ok c =>
    match previous with
    | none => Except.ok (compareScans c none)
    | some p =>
      match validateScan p with
      | Except.error e => Except.error e
      | Except.ok pv => Except.ok (compareScans c (some pv))

/-- Outcome of the GET /api/scan/latest request underlying
`ServerClient.getLatestScan`. -/
inductive LatestScanOutcome where
  | success (data : ScanResult)
  | axiosError (status : Option Nat) (message : String)
  | otherError (message : String)

/-- Shallow embedding of `ServerClient.getLatestScan` (src/unnamed/part_001,
lines 89–101): a successful response yields the scan; an axios error with
response status 404 yields `null` (no previous scan); any other error is
rethrown to the caller. -/
def getLatestScan (o : LatestScanOutcome) : Except String (Option ScanResult) :=
  match o with
  | LatestScanOutcome.success d => Except.ok (some d)
  | LatestScanOutcome.axiosError status message =>
    if status = some 404 then Except.ok none else Except.error message
  | LatestScanOutcome.otherError message => Except.error message

/-- Sequential validation fails whenever some member is missing its hash. -/
theorem validateIssues_error_of_missing_hash (rs : List RawIssue)
    (r : RawIssue) (hr : r ∈ rs) (hn : r.issueHash = none) :
    ∃ e, validateIssues rs = Except.error e := by
  induction rs with
  | nil => cases hr
  | cons a as ih =>
    cases hr with
    | head =>
      exact ⟨"issue missing identityHash",
        by simp [validateIssues, validateIssue, hn]⟩
    | tail _ hmem =>
      cases ha : a.issueHash with
      | none =>
        exact ⟨"issue missing identityHash",
          by simp [validateIssues, validateIssue, ha]⟩
      | some h =>
        obtain ⟨e, he⟩ := ih hmem
        exact ⟨e, by simp [validateIssues, validateIssue, ha, he]⟩

/-- C8: an absent previous scan is never an error on the comparison path — a
404 from `getLatestScan` yields `none` and comparing against `none` succeeds
(bootstrap) — while malformed input (a scan missing its issues list, or an
issue missing its identity hash, in either input) surfaces as a
data-validation error to the caller. -/
theorem compareScans_error_handling :
    (∀ m : String,
      getLatestScan (LatestScanOutcome.axiosError (some 404) m) =
        Except.ok none) ∧
    (∀ (raw : RawScanResult) (c : ScanResult),
      validateScan raw = Except.ok c →
      compareScansChecked raw none = Except.ok (compareScans c none)) ∧
    (∀ (raw : RawScanResult) (p : Option RawScanResult),
      raw.issues = none →
      compareScansChecked raw p = Except.error "scan missing issues") ∧
    (∀ (raw : RawScanResult) (rs : List RawIssue) (r : RawIssue)
        (p : Option RawScanResult),
      raw.issues = some rs → r ∈ rs → r.issueHash = none →
      ∃ e, compareScansChecked raw p = Except.error e) ∧
    (∀ (rawC : RawScanResult) (c : ScanResult) (rawP : RawScanResult),
      validateScan rawC = Except.ok c → rawP.issues = none →
      compareScansChecked rawC (some rawP) =
        Except.error "scan missing issues") := by
  refine ⟨fun m => by simp [getLatestScan], ?_, ?_, ?_, ?_⟩
  · intro raw c h
    simp [compareScansChecked, h]
  · intro raw p h
    cases p <;> simp [compareScansChecked, validateScan, h]
  · intro raw rs r p hsome hr hn
    obtain ⟨e, he⟩ := validateIssues_error_of_missing_hash rs r hr hn
    exact ⟨e, by cases p <;> simp [compareScansChecked, validateScan, hsome, he]⟩
  · intro rawC c rawP hC hP
    simp only [compareScansChecked, hC]
    simp [validateScan, hP]

/-- A well-formed raw issue and two malformed raw scans for the witness. -/
def rawIssueOk : RawIssue :=
  { id := "r1", category := IssueCategory.bug
    severity := IssueSeverity.warning, filePath := "a.py"
    lineStart := 1, lineEnd := 1, description := "x", recommendation := ""
    codeSnippet := none, issueHash := some "h1" }

def rawIssueBad : RawIssue :=
  { rawIssueOk with id := "r2", issueHash := none }

def rawScanMissingIssues : RawScanResult :=
  { scanId := "raw-1", scanDate := "2024-01-01", repositoryPath := "repo"
    detectedLanguages := [], detectedFrameworks := [], totalFiles := 0
    issues := none, summary := emptySummary }

def rawScanBadIssue : RawScanResult :=
  { rawScanMissingIssues with
    scanId := "raw-2"
    issues := some [rawIssueOk, rawIssueBad] }

/-- Witness for C8: a 404 bootstraps, a scan without issues errors, and a scan
with an issue missing its hash errors. -/
theorem compareScans_error_handling_witness :
    getLatestScan (LatestScanOutcome.axiosError (some 404) "not found") =
      Except.ok none ∧
    compareScansChecked rawScanMissingIssues none =
      Except.error "scan missing issues" ∧
    (∃ e, compareScansChecked rawScanBadIssue none = Except.error e) :=
  ⟨compareScans_error_handling.1 "not found",
    compareScans_error_handling.2.2.1 rawScanMissingIssues none rfl,
    compareScans_error_handling.2.2.2.1 rawScanBadIssue
      [rawIssueOk, rawIssueBad] rawIssueBad none rfl
      (List.mem_cons_of_mem _ (List.mem_cons_self _ _)) rfl⟩

/-- Outcome of the GET /health request underlying `ServerClient.checkHealth`. -/
inductive HttpOutcome where
  | success (status : Nat)
  | failure (message : String)
  deriving DecidableEq, Repr

/-- Shallow embedding of `ServerClient.checkHealth` (src/unnamed/part_001,
lines 32–39): on a response, return whether the status equals 200; if the
request throws, catch and return `false`. -/
def checkHealth (o : HttpOutcome) : Bool :=
  match o with
  | HttpOutcome.success status => status == 200
  | HttpOutcome.failure _ => false

/-- C9: `checkHealth` yields a boolean for every request outcome — `true`
exactly on a response with status 200, and `false` on every thrown error, so
callers need no try/catch. -/
theorem checkHealth_no_raise (o : HttpOutcome) :
    (checkHealth o = true ↔ o = HttpOutcome.success 200) ∧
    (∀ m, o = HttpOutcome.failure m → checkHealth o = false) := by
  cases o with
  | success s =>
    refine ⟨by simp [checkHealth], ?_⟩
    intro m h
    cases h
  | failure m =>
    exact ⟨by simp [checkHealth], fun m' _ => rfl⟩

/-- Witness for C9: a refused connection probes as `false`, a 200 as `true`. -/
theorem checkHealth_no_raise_witness :
    checkHealth (HttpOutcome.failure "ECONNREFUSED") = false ∧
    checkHealth (HttpOutcome.success 200) = true :=
  ⟨(checkHealth_no_raise (HttpOutcome.failure "ECONNREFUSED")).2
      "ECONNREFUSED" rfl,
    (checkHealth_no_raise (HttpOutcome.success 200)).1.mpr rfl⟩

/-- VS Code diagnostic severities. -/
inductive DiagnosticSeverity where
  | diagError
  | diagWarning
  | diagInformation
  | diagHint
  deriving DecidableEq, Repr

/-- A VS Code range; TypeScript numbers are embedded as `Int`. -/
structure VSRange where
  startLine : Int
  startCharacter : Int
  endLine : Int
  endCharacter : Int
  deriving DecidableEq, Repr

/-- The observable fields of the `vscode.Diagnostic` built by
`DiagnosticProvider.createDiagnostic`. -/
structure VSDiagnostic where
  range : VSRange
  message : String
  severity : DiagnosticSeverity
  source : String
  code : IssueCategory
  relatedRecommendation : Option String

/-- `Number.MAX_SAFE_INTEGER`. -/
def maxSafeInteger : Int := 2 ^ 53 - 1

/-- Shallow embedding of `DiagnosticProvider.createDiagnostic`
(src/unnamed/part_001, lines 237–273): the 1-based inclusive line range is
converted to a 0-based VS Code range clamped at zero; the severity comes from
the configured category mapping, defaulting to Warning; a non-empty
recommendation becomes related information. -/
def createDiagnostic
    (severityMapping : IssueCategory → Option DiagnosticSeverity)
    (issue : Issue) : VSDiagnostic :=
  let range : VSRange :=
    { startLine := max 0 (issue.lineStart - 1)
      startCharacter := 0
      endLine := max 0 (issue.lineEnd - 1)
      endCharacter := maxSafeInteger }
  { range := range
    message := issue.description
    severity :=
      (severityMapping issue.category).getD DiagnosticSeverity.diagWarning
    source := "CodeReviewPro"
    code := issue.category
    relatedRecommendation :=
      if issue.recommendation = "" then none
      else some ("💡 Recommendation: " ++ issue.recommendation) }

/-- C10: the produced range converts the 1-based lines with a clamp at zero —
its start line is `max 0 (lineStart - 1)`, its end line is
`max 0 (lineEnd - 1)`, and both are never negative, even for line 0. -/
theorem createDiagnostic_range_clamped
    (severityMapping : IssueCategory → Option DiagnosticSeverity)
    (issue : Issue) :
    (createDiagnostic severityMapping issue).range.startLine =
      max 0 (issue.lineStart - 1) ∧
    (createDiagnostic severityMapping issue).range.endLine =
      max 0 (issue.lineEnd - 1) ∧
    0 ≤ (createDiagnostic severityMapping issue).range.startLine ∧
    0 ≤ (createDiagnostic severityMapping issue).range.endLine :=
  ⟨rfl, rfl, le_max_left 0 _, le_max_left 0 _⟩

end CodeRev
